import Mathlib

/-!
Shallow embedding of the spreadsheet-workflow repository
(`WorkflowBuilder` in `src/unnamed/part_007`, `SingleSpreadsheet.tsx`,
`ThreeDSpreadsheet.tsx`, and the `api/aggregate` route), together with
proofs settling the frozen claims about it.

Conventions of the embedding:
* a JS cell object `(value, row, col)` becomes the structure `Cell`;
* a grid is a `List` of rows, each a `List Cell`;
* JS `Array.prototype.map` with an index argument becomes `idxMap`;
* `filter((unused, j) => j !== i)` removes exactly position `i`, which is
  `List.eraseIdx`;
* an asynchronous collaborator call is an oracle function returning
  `Except Unit result` (`.error` models a thrown network error or a
  non-2xx response); `Promise.all` over such calls is `promiseAll`,
  which rejects as soon as any element rejects.
-/

namespace SpreadsheetWorkflow

/-- One cell of a grid: the JS object with fields value, row, col. -/
structure Cell where
  value : String
  row : Nat
  col : Nat
deriving DecidableEq, Repr

abbrev SheetRow := List Cell

abbrev Grid := List SheetRow

/-- Indexed map starting at index `n`: models JS `arr.map((x, i) => f i x)`
with index offset `n` (the offset only matters for recursion). -/
def idxMapFrom (f : Nat → α → β) : Nat → List α → List β
  | _, [] => []
  | n, a :: as => f n a :: idxMapFrom f (n + 1) as

/-- JS `arr.map((x, i) => f i x)`. -/
def idxMap (f : Nat → α → β) (l : List α) : List β :=
  idxMapFrom f 0 l

/-- JS `Promise.all`: resolves to the list of values when every promise
resolves, and rejects (with the first rejection) when any rejects. -/
def promiseAll : List (Except ε α) → Except ε (List α)
  | [] => .ok []
  | .error e :: _ => .error e
  | .ok a :: rest =>
      match promiseAll rest with
      | .error e => .error e
      | .ok as => .ok (a :: as)

/-! ## SingleSpreadsheet (src/src/components/SingleSpreadsheet.tsx)

The component state is the header list plus the grid.  Every handler is
embedded as a function returning the new state together with a `Bool`
recording whether the handler invoked the parent notification callback
`onRowsChanged` (the one-hop cascade entry point of the orchestrator). -/

/-- Header list and grid of one SingleSpreadsheet. -/
structure SheetState where
  headers : List String
  data : Grid
deriving DecidableEq, Repr

/-- JS `row[0].row`; rows are nonempty in every reachable state (the
header list never becomes empty), so the default is never read there. -/
def rowOriginIdx (row : SheetRow) : Nat :=
  match row.head? with
  | some c => c.row
  | none => 0

/-- handleAddColumn: append the placeholder header and a blank cell at the
new index to every row; notifies the parent. -/
def handleAddColumn (s : SheetState) : SheetState × Bool :=
  ({ headers := s.headers ++ ["Column " ++ toString (s.headers.length + 1)]
     data := s.data.map fun row =>
       row ++ [{ value := "", row := rowOriginIdx row, col := s.headers.length }] },
   true)

/-- The per-row transform of handleDeleteColumn: drop position
`colIndex` and re-index the col field of the survivors. -/
def colDeletedRow (colIndex : Nat) (row : SheetRow) : SheetRow :=
  idxMap (fun i c => { c with col := i }) (row.eraseIdx colIndex)

/-- handleDeleteColumn: refuses when at most one column remains (returns
before reaching the notification); otherwise removes header `colIndex`,
drops position `colIndex` of every row and re-indexes the col field. -/
def handleDeleteColumn (s : SheetState) (colIndex : Nat) : SheetState × Bool :=
  if s.headers.length ≤ 1 then (s, false)
  else
    ({ headers := s.headers.eraseIdx colIndex
       data := s.data.map (colDeletedRow colIndex) },
     true)

/-- handleAddRow: appends one blank row (one cell per header); it only
calls setData, never the parent notification. -/
def handleAddRow (s : SheetState) : SheetState × Bool :=
  ({ headers := s.headers
     data := s.data ++
       [idxMap (fun colIndex _ => { value := "", row := s.data.length, col := colIndex }) s.headers] },
   false)

/-- handleDeleteRow: drops row `rowIndex` and re-indexes the row field of
later rows; it only calls setData, never the parent notification. -/
def handleDeleteRow (s : SheetState) (rowIndex : Nat) : SheetState × Bool :=
  ({ headers := s.headers
     data := idxMap (fun ri row => row.map fun c => { c with row := ri })
       (s.data.eraseIdx rowIndex) },
   false)

/-- handleHeaderChange: replaces header `colIndex` and notifies the parent
(the notification payload annotates cells with the header name; the grid
state itself is not modified by this handler). -/
def handleHeaderChange (s : SheetState) (colIndex : Nat) (value : String) :
    SheetState × Bool :=
  ({ headers := s.headers.set colIndex value, data := s.data }, true)

/-- The blank row JS builds in handleCellChange for a missing row index:
`Array(headers.length).fill(null).map((unused, colIndex) => ...)`. -/
def blankRowAt (headers : List String) (row : Nat) : SheetRow :=
  idxMap (fun colIndex _ => { value := "", row := row, col := colIndex }) headers

/-- handleCellChange: `newData = [...data]`, then if `newData[row]` is
undefined a fresh blank row is assigned at index `row`, then the cell at
`(row, col)` gets the new value.  JS arrays are sparse: assigning at an
index beyond the length leaves undefined holes in between, so the result
is a list of `Option` rows (`none` is a hole).  The handler always
notifies the parent. -/
def handleCellChange (headers : List String) (data : Grid) (row col : Nat)
    (value : String) : List (Option SheetRow) × Bool :=
  let d : List (Option SheetRow) := data.map some
  match data[row]? with
  | some r =>
      -- existing row: mutate the cell in place (the cell exists whenever
      -- col is within the row, which callers guarantee)
      let r2 := match r[col]? with
        | some c => r.set col { c with value := value }
        | none => r
      (d.set row (some r2), true)
  | none =>
      -- missing row: build a blank row, set its cell, and assign sparsely
      let withVal := match (blankRowAt headers row)[col]? with
        | some c => (blankRowAt headers row).set col { c with value := value }
        | none => blankRowAt headers row
      (d ++ List.replicate (row - data.length) none ++ [some withVal], true)

/-! ## ThreeDSpreadsheet (src/src/components/ThreeDSpreadsheet.tsx)

A 3D stack is a list of sub-sheets, each pairing the generating source
row (prevRow) with its own grid.  The component keeps a local mirror
`sheetData` holding exactly the `data` field of each sub-sheet (the
initialisation effect copies `data.map(item => item.data)`), so the
embedding reads rows from the sub-sheet's own `data` field. -/

/-- One sub-sheet of a 3D stack: the origin row plus the sub-grid. -/
structure SubSheet where
  prevRow : SheetRow
  data : Grid
deriving DecidableEq, Repr

/-- ThreeDSpreadsheet handleDeleteRow: drops row `rowIndex` of sub-sheet
`sheetIndex` and re-indexes the remaining rows of that sub-sheet only. -/
def threeDDeleteRow (data : List SubSheet) (sheetIndex rowIndex : Nat) :
    List SubSheet :=
  idxMap (fun idx item =>
    if idx = sheetIndex then
      { prevRow := item.prevRow
        data := idxMap (fun ri row => row.map fun c => { c with row := ri })
          (item.data.eraseIdx rowIndex) }
    else item) data

/-- The findall query ThreeDSpreadsheet sends for one sub-sheet. -/
def findQuery (headers : List String) (firstColumnCell : Cell) : String :=
  headers.headD "" ++ " for: " ++ firstColumnCell.value

/-- The grid built from a findall result list: one row per result,
column 0 holding the result text, the other header columns blank. -/
def findResultGrid (headers : List String) (results : List String) : Grid :=
  idxMap (fun rowIndex result =>
    idxMap (fun colIndex _ =>
      { value := if colIndex = 0 then result else "", row := rowIndex, col := colIndex })
      headers) results

/-- The promise handleRunFind issues for one sub-sheet: resolves to null
when the origin row has no column-0 cell, rejects when the findall call
rejects, and otherwise resolves to the updated sub-sheet. -/
def findSheetPromise (headers : List String)
    (find : String → Except Unit (List String)) (sheet : SubSheet) :
    Except Unit (Option SubSheet) :=
  match sheet.prevRow.find? (fun c => c.col == 0) with
  | none => .ok none
  | some firstColumnCell =>
      match find (findQuery headers firstColumnCell) with
      | .error e => .error e
      | .ok results =>
          .ok (some { prevRow := sheet.prevRow
                      data := findResultGrid headers results })

/-- ThreeDSpreadsheet handleRunFind: one findall call per sub-sheet,
joined with `Promise.all`; a rejection falls to the catch block, which
leaves the stack unchanged; on success the non-null updates (null
entries are filtered out) replace the stack. -/
def threeDRunFind (headers : List String) (data : List SubSheet)
    (find : String → Except Unit (List String)) : List SubSheet :=
  match promiseAll (data.map (findSheetPromise headers find)) with
  | .error _ => data
  | .ok updates =>
      updates.reduceOption.map fun u => { prevRow := u.prevRow, data := u.data }

/-- The input string one runCells row call sends: the row's own first
cell value when nonempty, otherwise the sub-sheet's origin value
(JS `row[0]?.value || firstColumnCell.value`). -/
def cellsInput (firstColumnCell : Cell) (row : SheetRow) : String :=
  match row.head? with
  | some c => if c.value = "" then firstColumnCell.value else c.value
  | none => firstColumnCell.value

/-- The row built from one runCells response: the entries of the returned
results object in order, position 0 forced back to the input value.
A response with success false (or missing results) leaves the row as is;
that is the `.ok none` case of the oracle. -/
def cellsResponseRow (firstColumnCell : Cell) (rowIndex : Nat) (row : SheetRow)
    (response : Option (List (String × String))) : SheetRow :=
  match response with
  | some results =>
      idxMap (fun colIndex kv =>
        { value := if colIndex = 0 then cellsInput firstColumnCell row else kv.2
          row := rowIndex, col := colIndex }) results
  | none => row

/-- The promise handleRunCells issues for one row of one sub-sheet. -/
def cellsRowPromise (run : String → Except Unit (Option (List (String × String))))
    (firstColumnCell : Cell) (rowIndex : Nat) (row : SheetRow) :
    Except Unit SheetRow :=
  match run (cellsInput firstColumnCell row) with
  | .error e => .error e
  | .ok response => .ok (cellsResponseRow firstColumnCell rowIndex row response)

/-- The promise handleRunCells issues for one sub-sheet: null when the
origin row has no column-0 cell, otherwise the `Promise.all` over its
per-row calls, rejecting when any row call rejects. -/
def cellsSheetPromise (run : String → Except Unit (Option (List (String × String))))
    (sheet : SubSheet) : Except Unit (Option SubSheet) :=
  match sheet.prevRow.find? (fun c => c.col == 0) with
  | none => .ok none
  | some firstColumnCell =>
      match promiseAll (idxMap (cellsRowPromise run firstColumnCell) sheet.data) with
      | .error e => .error e
      | .ok newRows => .ok (some { prevRow := sheet.prevRow, data := newRows })

/-- ThreeDSpreadsheet handleRunCells: for every sub-sheet with a column-0
origin cell, one runCells call per row of that sub-sheet, all joined by
nested `Promise.all`s; any rejection falls to the catch block, which
leaves the stack unchanged.  The oracle maps the input string to
`.error` (thrown / non-2xx), `.ok none` (success flag false), or
`.ok (some results)`. -/
def threeDRunCells (headers : List String) (data : List SubSheet)
    (run : String → Except Unit (Option (List (String × String)))) :
    List SubSheet :=
  match promiseAll (data.map (cellsSheetPromise run)) with
  | .error _ => data
  | .ok updates =>
      updates.reduceOption.map fun u => { prevRow := u.prevRow, data := u.data }

/-! ## WorkflowBuilder (src/unnamed/part_007)

Steps carry a tagged payload: a plain grid for single, aggregation and
llm_pipe steps, a list of sub-sheets for 3d steps. -/

inductive StepType where
  | single
  | threeD
  | aggregation
  | llmPipe
deriving DecidableEq, Repr

inductive StepData where
  | grid (g : Grid)
  | stack (s : List SubSheet)
deriving DecidableEq, Repr

structure WorkflowStep where
  type : StepType
  data : StepData
  executed : Bool
deriving DecidableEq, Repr

/-- The default sub-grid used when a recomputed sub-sheet has no existing
first sub-sheet to copy from. -/
def defaultSubGrid : Grid := [[{ value := "", row := 0, col := 0 }]]

/-- JS `(nextStep.data as any)[0]?.data || default`: the first sub-sheet's
grid when the payload is a nonempty stack (an empty grid is truthy in JS,
so it is kept), the default otherwise (element 0 of a grid payload is a
row, whose `.data` is undefined). -/
def headSubGrid : StepData → Grid
  | .stack (s0 :: _) => s0.data
  | _ => defaultSubGrid

/-- The TS cast `data as Array of rows`; it is only ever exercised on
grid payloads (the casting branches are guarded by the step's type), so
the stack case is modelled as the empty grid. -/
def asGrid : StepData → Grid
  | .grid g => g
  | .stack _ => []

/-- JS `Array.isArray(newData[0])` dispatch in the llm_pipe branch: a grid
payload is used row by row, a stack payload contributes each sub-sheet's
origin row.  (An empty grid takes the stack branch in JS, but both
branches send the empty list there.) -/
def llmSourceRows : StepData → List SheetRow
  | .grid g => g
  | .stack s => s.map fun sheet => sheet.prevRow

/-- JS `row[0]?.row || 0`. -/
def rowIdx0 (row : SheetRow) : Nat :=
  match row.head? with
  | some c => c.row
  | none => 0

/-- The serialized text the handleDataChange llm_pipe branch builds for
one source row: one line per cell labelled with the positional
placeholder Column i+1 (never the header name), joined by newlines. -/
def serializePlaceholderRow (row : SheetRow) : String :=
  String.intercalate "\n"
    (idxMap (fun colIndex cell =>
      "Column " ++ toString (colIndex + 1) ++ ": " ++ cell.value) row)

/-- One derived llm_pipe row in the handleDataChange cascade: column 0 is
the serialized source row, column 1 keeps an already computed response at
the same position of the previous llm_pipe grid (blank when absent). -/
def llmCascadeRow (existing : Grid) (index : Nat) (row : SheetRow) : SheetRow :=
  let existingResponse :=
    match existing[index]? with
    | some erow =>
        match erow[1]? with
        | some c => c.value
        | none => ""
    | none => ""
  [{ value := serializePlaceholderRow row, row := rowIdx0 row, col := 0 },
   { value := existingResponse, row := rowIdx0 row, col := 1 }]

/-- WorkflowBuilder handleDataChange: store the edited payload at
`stepIndex`, then recompute step `stepIndex + 1` when it exists and is
type-compatible (3d after single, or llm_pipe after anything); steps
further downstream are left alone. -/
def handleDataChange (steps : List WorkflowStep) (stepIndex : Nat)
    (newData : StepData) : List WorkflowStep :=
  match steps[stepIndex]? with
  | none => steps
  | some cur =>
      let steps1 := steps.set stepIndex { cur with data := newData, executed := false }
      match steps[stepIndex + 1]? with
      | none => steps1
      | some next =>
          let steps2 :=
            if cur.type = .single ∧ next.type = .threeD then
              steps1.set (stepIndex + 1)
                { next with
                  data := .stack ((asGrid newData).map fun row =>
                    { prevRow := row, data := headSubGrid next.data })
                  executed := false }
            else steps1
          if next.type = .llmPipe then
            steps2.set (stepIndex + 1)
              { next with
                data := .grid (idxMap (llmCascadeRow (asGrid next.data))
                  (llmSourceRows newData))
                executed := false }
          else steps2

/-- The line label handleCreateLLMPipe uses: the positional placeholder
Column i+1 when the source step is a single sheet, the cell's own col
index rendered as text otherwise. -/
def createPipeLabel (sourceType : StepType) (colIndex : Nat) (cell : Cell) : String :=
  if sourceType = .single then "Column " ++ toString (colIndex + 1)
  else toString cell.col

/-- The serialized text handleCreateLLMPipe builds for one source row. -/
def serializeCreatePipeRow (sourceType : StepType) (row : SheetRow) : String :=
  String.intercalate "\n"
    (idxMap (fun colIndex cell =>
      createPipeLabel sourceType colIndex cell ++ ": " ++ cell.value) row)

/-- WorkflowBuilder handleCreateLLMPipe: the appended llm_pipe step's
grid, one two-cell row per source row, column 0 the serialized text and
column 1 blank. -/
def handleCreateLLMPipe (sourceType : StepType) (sourceData : List SheetRow) :
    Grid :=
  sourceData.map fun row =>
    [{ value := serializeCreatePipeRow sourceType row, row := rowIdx0 row, col := 0 },
     { value := "", row := rowIdx0 row, col := 1 }]

/-- Modelled from the spec: the serialization rule as section 4.4 words
it, one line per cell of the form header name of column i, a colon and a
space, then the cell value.  It exists only to be compared with the
serialization the source actually performs. -/
def specHeaderNameSerializeRow (headers : List String) (row : SheetRow) : String :=
  String.intercalate "\n"
    (idxMap (fun colIndex cell => headers.getD colIndex "" ++ ": " ++ cell.value) row)

/-! ## Aggregation (SingleSpreadsheet.handleRunAggregation plus
src/src/app/api/aggregate/route.ts)

The aggregate route parses the model completion into a key/value object
(an unparsable completion degrades to the empty object, modelled as the
constantly-none map) and always answers success on the non-throwing
path, forcing the response sheetName to the origin row's first cell
value (falling back to the request's sheetName).  A thrown route error
answers status 500, which makes the client throw and leave the grid
unchanged; the run modelled here is the delivered-response path. -/

structure AggResponse where
  success : Bool
  sheetName : String
  aggregatedInsights : String → Option String

/-- The aggregate route POST body on the non-throwing path. -/
def aggregatePost (prevRow : SheetRow) (sheetName : String)
    (parsedData : String → Option String) : AggResponse :=
  let prevSheetName :=
    match prevRow.head? with
    | some c => if c.value = "" then sheetName else c.value
    | none => sheetName
  { success := true, sheetName := prevSheetName, aggregatedInsights := parsedData }

/-- SingleSpreadsheet handleRunAggregation on the path where every fetch
is answered: one aggregate call per sub-sheet of the source 3D stack
(carrying its cells, its origin row, the current headers and the sheet
name Sheet i+1), then one output row per successful response in call
order, column 0 the response sheetName (falling back to Sheet i+1) and
every later column the insight value for that header (blank when the key
is missing); rows for unsuccessful responses are filtered out. -/
def handleRunAggregation (headers : List String) (threeDSheets : List (List Cell))
    (prevRows : List SheetRow) (parsed : Nat → String → Option String) :
    List SheetRow :=
  let results := idxMap (fun sheetIndex _ =>
    aggregatePost (prevRows.getD sheetIndex [])
      ("Sheet " ++ toString (sheetIndex + 1)) (parsed sheetIndex)) threeDSheets
  (idxMap (fun rowIndex result =>
    if result.success then
      some (idxMap (fun colIndex header =>
        if colIndex = 0 then
          { value := if result.sheetName = "" then "Sheet " ++ toString (rowIndex + 1)
                     else result.sheetName
            row := rowIndex, col := colIndex }
        else
          { value := (result.aggregatedInsights header).getD ""
            row := rowIndex, col := colIndex }) headers)
    else none) results).reduceOption

/-! ## runAll (src/unnamed/part_007)

The sequencer walks the step list in order.  A step with a missing ref
or missing data is skipped with a warning.  Otherwise the step's
operations run inside a per-step try block: find then run-cells for
single and 3d steps, the single aggregation or llm operation otherwise.
A thrown operation stops the remaining operations of that step only; the
catch logs and the loop continues with the next step.  The oracle `fail`
tells which operation of which step throws. -/

inductive OpKind where
  | find
  | cells
  | aggregate
  | pipeLLM
deriving DecidableEq, Repr

/-- The operations the sequencer attempts for a step of each type. -/
def stepOps : StepType → List OpKind
  | .single => [.find, .cells]
  | .threeD => [.find, .cells]
  | .aggregation => [.aggregate]
  | .llmPipe => [.pipeLLM]

/-- One observable event of a run: step index, operation, and whether the
operation completed (false means it threw and was caught). -/
structure RunEvent where
  step : Nat
  op : OpKind
  ok : Bool
deriving DecidableEq, Repr

/-- A step as the sequencer sees it: its type plus whether its ref and
its data are present. -/
structure RunStep where
  type : StepType
  hasRef : Bool
  hasData : Bool
deriving DecidableEq, Repr

/-- The try block of one step: operations run in order until one throws;
the throwing operation is recorded with ok false and the rest of the
step's operations are abandoned (the catch swallows the error). -/
def runOps (i : Nat) (fail : OpKind → Bool) : List OpKind → List RunEvent
  | [] => []
  | k :: rest =>
      if fail k then [{ step := i, op := k, ok := false }]
      else { step := i, op := k, ok := true } :: runOps i fail rest

/-- The sequencer loop from step index `i` on: skipped steps produce no
events; every other step contributes its try-block events, and the loop
always continues to the next step. -/
def runAllFrom (fail : Nat → OpKind → Bool) : Nat → List RunStep → List RunEvent
  | _, [] => []
  | i, s :: rest =>
      (if s.hasRef && s.hasData then runOps i (fail i) (stepOps s.type) else [])
        ++ runAllFrom fail (i + 1) rest

/-- WorkflowBuilder runAll, as the trace of events it produces. -/
def runAll (fail : Nat → OpKind → Bool) (steps : List RunStep) : List RunEvent :=
  runAllFrom fail 0 steps

/-- A grid at rest is rectangular: every row has one cell per header. -/
def Rectangular (s : SheetState) : Prop :=
  ∀ row ∈ s.data, row.length = s.headers.length

/-- The independent per-sub-sheet update handleRunFind computes when the
whole fan-out succeeds: the sub-sheet's own findall results replace its
grid (a sub-sheet without a column-0 origin cell, or whose call failed,
is described as unchanged here; the theorems only use this definition
under hypotheses ruling those cases out). -/
def findUpdateSheet (headers : List String)
    (find : String → Except Unit (List String)) (sheet : SubSheet) : SubSheet :=
  match sheet.prevRow.find? (fun c => c.col == 0) with
  | none => sheet
  | some firstColumnCell =>
      match find (findQuery headers firstColumnCell) with
      | .error _ => sheet
      | .ok results =>
          { prevRow := sheet.prevRow, data := findResultGrid headers results }

/-- The independent per-row update handleRunCells computes for one row
when its call is answered. -/
def cellsUpdateRow (run : String → Except Unit (Option (List (String × String))))
    (firstColumnCell : Cell) (rowIndex : Nat) (row : SheetRow) : SheetRow :=
  match run (cellsInput firstColumnCell row) with
  | .error _ => row
  | .ok response => cellsResponseRow firstColumnCell rowIndex row response

/-- The independent per-sub-sheet update handleRunCells computes when
the whole fan-out succeeds. -/
def cellsUpdateSheet (run : String → Except Unit (Option (List (String × String))))
    (sheet : SubSheet) : SubSheet :=
  match sheet.prevRow.find? (fun c => c.col == 0) with
  | none => sheet
  | some firstColumnCell =>
      { prevRow := sheet.prevRow
        data := idxMap (cellsUpdateRow run firstColumnCell) sheet.data }

/-- A findall collaborator stub that rejects every query (used by
concrete instantiations). -/
def alwaysFailFind : String → Except Unit (List String) := fun _ => .error ()

/-- A runCells collaborator stub that answers every input with one
column A holding v (used by concrete instantiations). -/
def alwaysOkRun : String → Except Unit (Option (List (String × String))) :=
  fun _ => .ok (some [("A", "v")])

/-! ## Theorems -/

theorem length_idxMapFrom (f : Nat → α → β) (n : Nat) (l : List α) :
    (idxMapFrom f n l).length = l.length := by
  induction l generalizing n with
  | nil => rfl
  | cons a as ih => simp [idxMapFrom, ih]

theorem length_idxMap (f : Nat → α → β) (l : List α) :
    (idxMap f l).length = l.length :=
  length_idxMapFrom f 0 l

theorem getElem?_idxMapFrom (f : Nat → α → β) (n : Nat) (l : List α) (k : Nat) :
    (idxMapFrom f n l)[k]? = (l[k]?).map (f (n + k)) := by
  induction l generalizing n k with
  | nil => simp [idxMapFrom]
  | cons a as ih =>
      cases k with
      | zero => simp [idxMapFrom]
      | succ k =>
          simp only [idxMapFrom, List.getElem?_cons_succ, ih]
          have : n + 1 + k = n + (k + 1) := by omega
          rw [this]

theorem getElem?_idxMap (f : Nat → α → β) (l : List α) (k : Nat) :
    (idxMap f l)[k]? = (l[k]?).map (f k) := by
  have h := getElem?_idxMapFrom f 0 l k
  simpa [idxMap] using h

theorem mem_idxMapFrom {f : Nat → α → β} {n : Nat} {l : List α} {b : β}
    (hb : b ∈ idxMapFrom f n l) : ∃ k a, l[k]? = some a ∧ b = f (n + k) a := by
  induction l generalizing n with
  | nil => simp [idxMapFrom] at hb
  | cons a as ih =>
      simp only [idxMapFrom, List.mem_cons] at hb
      rcases hb with hb | hb
      · exact ⟨0, a, by simp, by simpa using hb⟩
      · rcases ih hb with ⟨k, a', hk, hbk⟩
        refine ⟨k + 1, a', by simpa using hk, ?_⟩
        have hn : n + 1 + k = n + (k + 1) := by omega
        rw [← hn]; exact hbk

theorem promiseAll_ok_of_forall {l : List (Except ε α)}
    (h : ∀ x ∈ l, ∃ a, x = .ok a) :
    ∃ as, promiseAll l = .ok as ∧
      ∀ k : Nat, as[k]? = (l[k]?).bind Except.toOption := by
  induction l with
  | nil => exact ⟨[], rfl, by intro k; simp⟩
  | cons x rest ih =>
      rcases h x (by simp) with ⟨a, rfl⟩
      rcases ih (fun y hy => h y (by simp [hy])) with ⟨as, has, hget⟩
      refine ⟨a :: as, by simp [promiseAll, has], ?_⟩
      intro k
      cases k with
      | zero => simp [Except.toOption]
      | succ k => simpa using hget k

theorem promiseAll_error_of_mem {l : List (Except ε α)} {e : ε}
    (h : .error e ∈ l) : ∃ e2, promiseAll l = .error e2 := by
  induction l with
  | nil => simp at h
  | cons x rest ih =>
      rcases List.mem_cons.mp h with rfl | h2
      · exact ⟨e, rfl⟩
      · cases x with
        | error e3 => exact ⟨e3, rfl⟩
        | ok a =>
            rcases ih h2 with ⟨e2, he2⟩
            exact ⟨e2, by simp [promiseAll, he2]⟩

theorem length_colDeletedRow (colIndex : Nat) (row : SheetRow) :
    (colDeletedRow colIndex row).length = (row.eraseIdx colIndex).length := by
  simp [colDeletedRow, length_idxMap]

theorem mem_of_getElem?_some {l : List α} {k : Nat} {a : α}
    (h : l[k]? = some a) : a ∈ l := by
  rcases List.getElem?_eq_some_iff.mp h with ⟨hlt, rfl⟩
  exact List.getElem_mem hlt

/-- C6: every one of the four mutating grid operations (add row, delete
row, add column, delete column) maps a rectangular grid to a rectangular
grid: afterwards the header count still equals every row's cell count. -/
theorem claim_C6_mutations_preserve_rectangular (s : SheetState) (i j : Nat)
    (h : Rectangular s) :
    Rectangular (handleAddRow s).1 ∧ Rectangular (handleDeleteRow s j).1 ∧
    Rectangular (handleAddColumn s).1 ∧ Rectangular (handleDeleteColumn s i).1 := by
  refine ⟨?_, ?_, ?_, ?_⟩
  · intro row hrow
    simp only [handleAddRow, List.mem_append, List.mem_singleton] at hrow
    rcases hrow with hrow | rfl
    · exact h row hrow
    · simp [handleAddRow, length_idxMap]
  · intro row hrow
    simp only [handleDeleteRow] at hrow ⊢
    rcases mem_idxMapFrom hrow with ⟨k, orig, hk, rfl⟩
    have horig : orig ∈ s.data :=
      List.Sublist.mem (mem_of_getElem?_some hk) (List.eraseIdx_sublist s.data j)
    simp [h orig horig]
  · intro row hrow
    simp only [handleAddColumn, List.mem_map] at hrow
    rcases hrow with ⟨orig, horig, rfl⟩
    simp [handleAddColumn, h orig horig]
  · intro row hrow
    by_cases hg : s.headers.length ≤ 1
    · simp only [handleDeleteColumn, if_pos hg] at hrow ⊢
      exact h row hrow
    · simp only [handleDeleteColumn, if_neg hg, List.mem_map] at hrow ⊢
      rcases hrow with ⟨orig, horig, rfl⟩
      rw [length_colDeletedRow, List.length_eraseIdx, List.length_eraseIdx,
        h orig horig]

/-- C6 witness: the operations applied to a concrete rectangular
two-column grid. -/
theorem claim_C6_mutations_preserve_rectangular_witness :
    Rectangular (handleAddRow ⟨["Input", "Notes"], [[⟨"a", 0, 0⟩, ⟨"b", 0, 1⟩]]⟩).1 ∧
    Rectangular (handleDeleteRow ⟨["Input", "Notes"], [[⟨"a", 0, 0⟩, ⟨"b", 0, 1⟩]]⟩ 0).1 ∧
    Rectangular (handleAddColumn ⟨["Input", "Notes"], [[⟨"a", 0, 0⟩, ⟨"b", 0, 1⟩]]⟩).1 ∧
    Rectangular (handleDeleteColumn ⟨["Input", "Notes"], [[⟨"a", 0, 0⟩, ⟨"b", 0, 1⟩]]⟩ 1).1 :=
  claim_C6_mutations_preserve_rectangular ⟨["Input", "Notes"], [[⟨"a", 0, 0⟩, ⟨"b", 0, 1⟩]]⟩ 1 0
    (by intro row hrow; simp at hrow; subst hrow; rfl)

/-- C8: deleteColumn is a no-op (state returned unchanged, parent not
notified) when exactly one header remains; otherwise it erases header
`i`, applies the erase-and-reindex transform to every row, and in every
transformed row the cell stored at position `j` is the old cell at
position `j` of the erased row with its col field re-indexed to `j`
(columns stay contiguous). -/
theorem claim_C8_deleteColumn_guard_and_reindex (s : SheetState) (i : Nat) :
    (s.headers.length = 1 → handleDeleteColumn s i = (s, false)) ∧
    (1 < s.headers.length →
      (handleDeleteColumn s i).1.headers = s.headers.eraseIdx i ∧
      (handleDeleteColumn s i).1.data = s.data.map (colDeletedRow i) ∧
      (∀ j : Nat, (s.headers.eraseIdx i)[j]? =
        if j < i then s.headers[j]? else s.headers[j + 1]?)) ∧
    (∀ row : SheetRow, ∀ j : Nat, ∀ c : Cell,
      (colDeletedRow i row)[j]? = some c →
      c.col = j ∧ ∃ orig : Cell,
        (if j < i then row[j]? else row[j + 1]?) = some orig ∧
        c = { orig with col := j }) := by
  refine ⟨?_, ?_, ?_⟩
  · intro h1
    simp [handleDeleteColumn, h1]
  · intro h1
    have hg : ¬ s.headers.length ≤ 1 := by omega
    refine ⟨by simp [handleDeleteColumn, if_neg hg], by simp [handleDeleteColumn, if_neg hg], ?_⟩
    intro j
    exact List.getElem?_eraseIdx s.headers i j
  · intro row j c hc
    rw [colDeletedRow, getElem?_idxMap] at hc
    cases herase : (row.eraseIdx i)[j]? with
    | none => rw [herase] at hc; simp at hc
    | some orig =>
        rw [herase] at hc
        have hc2 : ({ orig with col := j } : Cell) = c := Option.some.inj hc
        rcases hc2 with rfl
        rw [List.getElem?_eraseIdx] at herase
        exact ⟨rfl, orig, herase, rfl⟩

/-- C8 witness: on a concrete two-column grid, deleting column 0
reindexes the surviving column, and on a one-column grid deletion is
refused. -/
theorem claim_C8_deleteColumn_guard_and_reindex_witness :
    (handleDeleteColumn ⟨["Only"], [[⟨"a", 0, 0⟩]]⟩ 0 =
      (⟨["Only"], [[⟨"a", 0, 0⟩]]⟩, false)) ∧
    ((handleDeleteColumn ⟨["A", "B"], [[⟨"a", 0, 0⟩, ⟨"b", 0, 1⟩]]⟩ 0).1.headers = ["B"]) ∧
    (colDeletedRow 0 [⟨"a", 0, 0⟩, ⟨"b", 0, 1⟩])[0]? = some ⟨"b", 0, 0⟩ := by
  refine ⟨(claim_C8_deleteColumn_guard_and_reindex ⟨["Only"], [[⟨"a", 0, 0⟩]]⟩ 0).1 rfl,
    ?_, by decide⟩
  have h := ((claim_C8_deleteColumn_guard_and_reindex
    ⟨["A", "B"], [[⟨"a", 0, 0⟩, ⟨"b", 0, 1⟩]]⟩ 0).2.1 (by decide)).1
  rw [h]; decide

/-- C9 counterexample: deleting the only row is not refused.  On a
one-row single sheet, handleDeleteRow 0 leaves a grid with zero rows, and
on a 3D stack whose only sub-sheet has one row, handleDeleteRow leaves
that sub-sheet with zero rows; no empty row remains in either. -/
theorem claim_C9_counterexample :
    ((handleDeleteRow ⟨["Input"], [[⟨"", 0, 0⟩]]⟩ 0).1.data = []) ∧
    (threeDDeleteRow [⟨[⟨"Acme", 0, 0⟩], [[⟨"", 0, 0⟩]]⟩] 0 0 =
      [⟨[⟨"Acme", 0, 0⟩], []⟩]) := by
  constructor <;> rfl

/-- C9 amended: there is no at-least-one-row floor.  Deleting any valid
row index always shrinks the grid by exactly one row (so deleting the
last remaining row leaves zero rows), both for a single sheet and inside
the addressed sub-sheet of a 3D stack. -/
theorem claim_C9_amended_deleteRow_always_removes (s : SheetState) (i : Nat)
    (h : i < s.data.length) :
    ((handleDeleteRow s i).1.data.length = s.data.length - 1) ∧
    (∀ (stack : List SubSheet) (k r : Nat) (sub : SubSheet),
      stack[k]? = some sub → r < sub.data.length →
      ((threeDDeleteRow stack k r)[k]?).map (fun u => u.data.length) =
        some (sub.data.length - 1)) := by
  constructor
  · simp [handleDeleteRow, length_idxMap, List.length_eraseIdx, h]
  · intro stack k r sub hk hr
    rw [threeDDeleteRow, getElem?_idxMap, hk]
    simp [length_idxMap, List.length_eraseIdx, hr]

/-- C9 amended witness: the concrete one-row sheet and one-row sub-sheet
of the counterexample, ending at zero rows. -/
theorem claim_C9_amended_deleteRow_always_removes_witness :
    ((handleDeleteRow ⟨["Input"], [[⟨"", 0, 0⟩]]⟩ 0).1.data.length = 1 - 1) ∧
    (∀ (stack : List SubSheet) (k r : Nat) (sub : SubSheet),
      stack[k]? = some sub → r < sub.data.length →
      ((threeDDeleteRow stack k r)[k]?).map (fun u => u.data.length) =
        some (sub.data.length - 1)) :=
  claim_C9_amended_deleteRow_always_removes ⟨["Input"], [[⟨"", 0, 0⟩]]⟩ 0 (by decide)

/-- C10: handleAddRow and handleDeleteRow only replace the local grid and
never invoke the parent notification callback, so they never start the
one-hop cascade, while cell edits, header renames, column adds and
(non-refused) column deletes all do notify the parent. -/
theorem claim_C10_row_ops_never_notify (s : SheetState) (i col row : Nat)
    (v : String) (headers : List String) (data : Grid) :
    ((handleAddRow s).2 = false) ∧
    ((handleDeleteRow s i).2 = false) ∧
    ((handleCellChange headers data row col v).2 = true) ∧
    ((handleHeaderChange s col v).2 = true) ∧
    ((handleAddColumn s).2 = true) ∧
    (1 < s.headers.length → (handleDeleteColumn s i).2 = true) := by
  refine ⟨rfl, rfl, ?_, rfl, rfl, ?_⟩
  · unfold handleCellChange
    cases data[row]? <;> rfl
  · intro h
    have hg : ¬ s.headers.length ≤ 1 := by omega
    simp [handleDeleteColumn, hg]

/-- C10 witness: the notification flags on a concrete one-cell sheet with
two headers. -/
theorem claim_C10_row_ops_never_notify_witness :
    ((handleAddRow ⟨["A", "B"], []⟩).2 = false) ∧
    ((handleDeleteRow ⟨["A", "B"], []⟩ 0).2 = false) ∧
    ((handleCellChange ["X"] [] 0 0 "v").2 = true) ∧
    ((handleHeaderChange ⟨["A", "B"], []⟩ 0 "v").2 = true) ∧
    ((handleAddColumn ⟨["A", "B"], []⟩).2 = true) ∧
    (1 < (SheetState.headers ⟨["A", "B"], []⟩).length →
      (handleDeleteColumn ⟨["A", "B"], []⟩ 0).2 = true) :=
  claim_C10_row_ops_never_notify ⟨["A", "B"], []⟩ 0 0 0 "v" ["X"] []

/-- C7 counterexample: setCell two past the end does not fill the gap
with blank rows.  On a one-row grid, handleCellChange 2 0 extends the
array to length 3 but index 1 is an undefined hole (none), so not every
row index from the old row count through `row` exists afterwards. -/
theorem claim_C7_counterexample :
    ((handleCellChange ["Input"] [[⟨"", 0, 0⟩]] 2 0 "x").1.length = 3) ∧
    ((handleCellChange ["Input"] [[⟨"", 0, 0⟩]] 2 0 "x").1[1]? = some none) := by
  constructor <;> rfl

/-- C7 amended: setCell with an in-range column and a row index at or
past the current row count raises no error and extends the array to
length row+1, but only the target index gets a row: that row is the
blank row for the current headers with cell `col` set to the value (its
other cells blank), earlier existing rows are untouched, and every index
strictly between the old row count and `row` is left as an undefined
hole rather than a blank row. -/
theorem claim_C7_amended_setCell_sparse_extend (headers : List String)
    (data : Grid) (row col : Nat) (value : String)
    (hrow : data.length ≤ row) (hcol : col < headers.length) :
    ((handleCellChange headers data row col value).1.length = row + 1) ∧
    ((handleCellChange headers data row col value).1[row]? =
      some (some ((blankRowAt headers row).set col ⟨value, row, col⟩))) ∧
    (∀ j : Nat, j < data.length →
      (handleCellChange headers data row col value).1[j]? = (data[j]?).map some) ∧
    (∀ j : Nat, data.length ≤ j → j < row →
      (handleCellChange headers data row col value).1[j]? = some none) ∧
    (∀ j : Nat, j < headers.length → j ≠ col →
      ((blankRowAt headers row).set col ⟨value, row, col⟩)[j]? =
        some ⟨"", row, j⟩) := by
  have hnone : data[row]? = none := List.getElem?_eq_none hrow
  have hblank : (blankRowAt headers row)[col]? = some ⟨"", row, col⟩ := by
    rw [blankRowAt, getElem?_idxMap]
    rcases List.getElem?_eq_some_iff.mpr ⟨hcol, rfl⟩ with h
    rw [List.getElem?_eq_getElem hcol]
    rfl
  have hres : (handleCellChange headers data row col value).1 =
      data.map some ++ List.replicate (row - data.length) none ++
        [some ((blankRowAt headers row).set col ⟨value, row, col⟩)] := by
    unfold handleCellChange
    rw [hnone, hblank]
  have hlen : (data.map some ++ List.replicate (row - data.length) none ++
      [some ((blankRowAt headers row).set col ⟨value, row, col⟩)] :
        List (Option SheetRow)).length = row + 1 := by
    simp; omega
  refine ⟨by rw [hres]; exact hlen, ?_, ?_, ?_, ?_⟩
  · rw [hres, List.getElem?_append]
    have h1 : ¬ row < (data.map some ++
        List.replicate (row - data.length) none : List (Option SheetRow)).length := by
      simp; omega
    rw [if_neg h1]
    have h2 : row - (data.map some ++
        List.replicate (row - data.length) none : List (Option SheetRow)).length = 0 := by
      simp; omega
    rw [h2]
    rfl
  · intro j hj
    rw [hres, List.getElem?_append, if_pos (by simp; omega),
      List.getElem?_append, if_pos (by simp; omega), List.getElem?_map]
  · intro j hj1 hj2
    rw [hres, List.getElem?_append, if_pos (by simp; omega),
      List.getElem?_append, if_neg (by simp; omega)]
    have : (List.replicate (row - data.length) (none : Option SheetRow))[j - (data.map some).length]? = some none := by
      rw [List.getElem?_replicate, if_pos (by simp; omega)]
    simpa using this
  · intro j hj hne
    rw [List.getElem?_set_ne (fun h => hne h.symm), blankRowAt, getElem?_idxMap,
      List.getElem?_eq_getElem hj]
    rfl

/-- C7 witness: on a one-row two-column grid, setCell at row 3 column 1
extends the array to length 4, keeps row 0, leaves holes at indices 1
and 2, and builds the target row blank except for the set cell. -/
theorem claim_C7_amended_setCell_sparse_extend_witness :
    ((handleCellChange ["A", "B"] [[⟨"", 0, 0⟩, ⟨"", 0, 1⟩]] 3 1 "v").1.length = 3 + 1) ∧
    ((handleCellChange ["A", "B"] [[⟨"", 0, 0⟩, ⟨"", 0, 1⟩]] 3 1 "v").1[3]? =
      some (some ((blankRowAt ["A", "B"] 3).set 1 ⟨"v", 3, 1⟩))) ∧
    (∀ j : Nat, j < ([[⟨"", 0, 0⟩, ⟨"", 0, 1⟩]] : Grid).length →
      (handleCellChange ["A", "B"] [[⟨"", 0, 0⟩, ⟨"", 0, 1⟩]] 3 1 "v").1[j]? =
        (([[⟨"", 0, 0⟩, ⟨"", 0, 1⟩]] : Grid)[j]?).map some) ∧
    (∀ j : Nat, ([[⟨"", 0, 0⟩, ⟨"", 0, 1⟩]] : Grid).length ≤ j → j < 3 →
      (handleCellChange ["A", "B"] [[⟨"", 0, 0⟩, ⟨"", 0, 1⟩]] 3 1 "v").1[j]? = some none) ∧
    (∀ j : Nat, j < (["A", "B"] : List String).length → j ≠ 1 →
      ((blankRowAt ["A", "B"] 3).set 1 ⟨"v", 3, 1⟩)[j]? = some ⟨"", 3, j⟩) :=
  claim_C7_amended_setCell_sparse_extend ["A", "B"] [[⟨"", 0, 0⟩, ⟨"", 0, 1⟩]] 3 1 "v"
    (by decide) (by decide)

/-- C3 counterexample: the LLM-Pipe serialization does not use header
names.  For a single-sheet source whose only header is Input and whose
row holds the value x, handleCreateLLMPipe serializes the line as
Column 1 colon x, while the serialization the spec words (header name of
column i) yields Input colon x; the two differ. -/
theorem claim_C3_counterexample :
    (serializeCreatePipeRow .single [⟨"x", 0, 0⟩] = "Column 1: x") ∧
    (specHeaderNameSerializeRow ["Input"] [⟨"x", 0, 0⟩] = "Input: x") ∧
    serializeCreatePipeRow .single [⟨"x", 0, 0⟩] ≠
      specHeaderNameSerializeRow ["Input"] [⟨"x", 0, 0⟩] := by
  refine ⟨rfl, rfl, by decide⟩

/-- C3 amended: handleCreateLLMPipe derives one two-cell row per source
row in order; column 0 holds the source row serialized one line per cell
labelled with the positional placeholder Column i+1 when the source step
is a single sheet (the cell's stored col index otherwise) rather than
the header name, and column 1 starts blank.  Line k of the serialization
is the label for position k followed by the cell value. -/
theorem claim_C3_amended_pipe_serialization (sourceType : StepType)
    (sourceData : List SheetRow) :
    ((handleCreateLLMPipe sourceType sourceData).length = sourceData.length) ∧
    (∀ k : Nat, (handleCreateLLMPipe sourceType sourceData)[k]? =
      (sourceData[k]?).map fun r =>
        [⟨serializeCreatePipeRow sourceType r, rowIdx0 r, 0⟩,
         ⟨"", rowIdx0 r, 1⟩]) ∧
    (∀ r : SheetRow, ∀ k : Nat, ∀ cell : Cell, r[k]? = some cell →
      (idxMap (fun colIndex c => createPipeLabel sourceType colIndex c ++ ": " ++ c.value) r)[k]? =
        some (createPipeLabel sourceType k cell ++ ": " ++ cell.value)) ∧
    (∀ k : Nat, ∀ c : Cell, createPipeLabel .single k c = "Column " ++ toString (k + 1)) := by
  refine ⟨by simp [handleCreateLLMPipe], ?_, ?_, ?_⟩
  · intro k
    rw [handleCreateLLMPipe, List.getElem?_map]
  · intro r k cell hk
    rw [getElem?_idxMap, hk]
    rfl
  · intro k c
    rfl

/-- C3 witness: the amended derivation on a concrete two-row source. -/
theorem claim_C3_amended_pipe_serialization_witness :
    ((handleCreateLLMPipe .single [[⟨"x", 0, 0⟩], [⟨"y", 1, 0⟩]]).length =
      ([[⟨"x", 0, 0⟩], [⟨"y", 1, 0⟩]] : List SheetRow).length) ∧
    (∀ k : Nat, (handleCreateLLMPipe .single [[⟨"x", 0, 0⟩], [⟨"y", 1, 0⟩]])[k]? =
      (([[⟨"x", 0, 0⟩], [⟨"y", 1, 0⟩]] : List SheetRow)[k]?).map fun r =>
        [⟨serializeCreatePipeRow .single r, rowIdx0 r, 0⟩,
         ⟨"", rowIdx0 r, 1⟩]) ∧
    (∀ r : SheetRow, ∀ k : Nat, ∀ cell : Cell, r[k]? = some cell →
      (idxMap (fun colIndex c => createPipeLabel .single colIndex c ++ ": " ++ c.value) r)[k]? =
        some (createPipeLabel .single k cell ++ ": " ++ cell.value)) ∧
    (∀ k : Nat, ∀ c : Cell, createPipeLabel .single k c = "Column " ++ toString (k + 1)) :=
  claim_C3_amended_pipe_serialization .single [[⟨"x", 0, 0⟩], [⟨"y", 1, 0⟩]]

/-- C1: editing a Single step that is immediately followed by a 3D step
recomputes exactly that 3D step: the new stack has one sub-sheet per row
of the edited grid, sub-sheet k originating from row k (prevRow = row k),
and every step past i+1 is exactly what it was before the edit. -/
theorem claim_C1_editStep_cascades_one_hop (steps : List WorkflowStep) (i : Nat)
    (data : Grid) (cur next : WorkflowStep)
    (hc : steps[i]? = some cur) (hcT : cur.type = .single)
    (hn : steps[i + 1]? = some next) (hnT : next.type = .threeD) :
    (∃ subs : List SubSheet,
      (handleDataChange steps i (.grid data))[i + 1]? =
        some { type := next.type, data := .stack subs, executed := false } ∧
      subs.length = data.length ∧
      ∀ k : Nat, (subs[k]?).map SubSheet.prevRow = data[k]?) ∧
    (∀ j : Nat, i + 1 < j →
      (handleDataChange steps i (.grid data))[j]? = steps[j]?) := by
  have hlt : i + 1 < steps.length := (List.getElem?_eq_some_iff.mp hn).1
  have hres : handleDataChange steps i (.grid data) =
      (steps.set i { cur with data := .grid data, executed := false }).set (i + 1)
        { next with
          data := .stack (data.map fun row =>
            { prevRow := row, data := headSubGrid next.data })
          executed := false } := by
    unfold handleDataChange
    rw [hc, hn]
    simp only [hcT, hnT, and_self, if_true, reduceCtorEq, if_false]
    rfl
  constructor
  · refine ⟨data.map fun row => { prevRow := row, data := headSubGrid next.data },
      ?_, by simp, ?_⟩
    · rw [hres, List.getElem?_set_self (by simpa using hlt)]
    · intro k
      rw [List.getElem?_map, Option.map_map]
      cases data[k]? <;> rfl
  · intro j hj
    rw [hres, List.getElem?_set_ne (by omega), List.getElem?_set_ne (by omega)]

/-- C1 witness: a three-step workflow Single, 3D, llm_pipe; editing step
0 with a two-row grid rebuilds step 1 with two sub-sheets originating
from the new rows and leaves step 2 untouched. -/
theorem claim_C1_editStep_cascades_one_hop_witness :
    (∃ subs : List SubSheet,
      (handleDataChange
        [⟨.single, .grid [[⟨"", 0, 0⟩]], false⟩,
         ⟨.threeD, .stack [⟨[⟨"old", 0, 0⟩], [[⟨"sub", 0, 0⟩]]⟩], false⟩,
         ⟨.llmPipe, .grid [], false⟩] 0
        (.grid [[⟨"Acme", 0, 0⟩], [⟨"Beta", 1, 0⟩]]))[0 + 1]? =
        some ⟨StepType.threeD, .stack subs, false⟩ ∧
      subs.length = ([[⟨"Acme", 0, 0⟩], [⟨"Beta", 1, 0⟩]] : Grid).length ∧
      ∀ k : Nat, (subs[k]?).map SubSheet.prevRow =
        ([[⟨"Acme", 0, 0⟩], [⟨"Beta", 1, 0⟩]] : Grid)[k]?) ∧
    (∀ j : Nat, 0 + 1 < j →
      (handleDataChange
        [⟨.single, .grid [[⟨"", 0, 0⟩]], false⟩,
         ⟨.threeD, .stack [⟨[⟨"old", 0, 0⟩], [[⟨"sub", 0, 0⟩]]⟩], false⟩,
         ⟨.llmPipe, .grid [], false⟩] 0
        (.grid [[⟨"Acme", 0, 0⟩], [⟨"Beta", 1, 0⟩]]))[j]? =
        ([⟨.single, .grid [[⟨"", 0, 0⟩]], false⟩,
          ⟨.threeD, .stack [⟨[⟨"old", 0, 0⟩], [[⟨"sub", 0, 0⟩]]⟩], false⟩,
          ⟨.llmPipe, .grid [], false⟩] : List WorkflowStep)[j]?) :=
  claim_C1_editStep_cascades_one_hop
    [⟨.single, .grid [[⟨"", 0, 0⟩]], false⟩,
     ⟨.threeD, .stack [⟨[⟨"old", 0, 0⟩], [[⟨"sub", 0, 0⟩]]⟩], false⟩,
     ⟨.llmPipe, .grid [], false⟩] 0 [[⟨"Acme", 0, 0⟩], [⟨"Beta", 1, 0⟩]]
    ⟨.single, .grid [[⟨"", 0, 0⟩]], false⟩
    ⟨.threeD, .stack [⟨[⟨"old", 0, 0⟩], [[⟨"sub", 0, 0⟩]]⟩], false⟩
    rfl rfl rfl rfl

/-- The first operation the sequencer attempts for a step of each type;
stepOps is never empty. -/
def firstOp (t : StepType) : OpKind :=
  (stepOps t).headD .find

theorem stepOps_ne_nil (t : StepType) : stepOps t ≠ [] := by
  cases t <;> simp [stepOps]

theorem runOps_step_eq {i : Nat} {f : OpKind → Bool} {ops : List OpKind}
    {e : RunEvent} (he : e ∈ runOps i f ops) : e.step = i := by
  induction ops with
  | nil => simp [runOps] at he
  | cons k rest ih =>
      rw [runOps] at he
      by_cases hk : f k
      · rw [if_pos hk] at he
        simp at he
        rw [he]
      · rw [if_neg hk] at he
        rcases List.mem_cons.mp he with rfl | he2
        · rfl
        · exact ih he2

theorem runOps_first_mem (i : Nat) (f : OpKind → Bool) (k : OpKind)
    (rest : List OpKind) :
    ({ step := i, op := k, ok := !(f k) } : RunEvent) ∈ runOps i f (k :: rest) := by
  rw [runOps]
  by_cases hk : f k
  · rw [if_pos hk, hk]
    simp
  · rw [if_neg hk, Bool.not_eq_true] at *
    rw [hk]
    exact List.mem_cons_self _ _

theorem runAllFrom_step_ge {fail : Nat → OpKind → Bool} {n : Nat}
    {steps : List RunStep} {e : RunEvent}
    (he : e ∈ runAllFrom fail n steps) : n ≤ e.step := by
  induction steps generalizing n with
  | nil => simp [runAllFrom] at he
  | cons s rest ih =>
      rw [runAllFrom] at he
      rcases List.mem_append.mp he with he1 | he2
      · by_cases hs : s.hasRef && s.hasData
        · rw [if_pos hs] at he1
          exact (runOps_step_eq he1).ge
        · rw [if_neg hs] at he1
          simp at he1
      · exact (Nat.le_succ n).trans (ih he2)

theorem runOps_sorted (i : Nat) (f : OpKind → Bool) (ops : List OpKind) :
    List.Pairwise (fun a b : RunEvent => a.step ≤ b.step) (runOps i f ops) := by
  induction ops with
  | nil => simp [runOps]
  | cons k rest ih =>
      rw [runOps]
      by_cases hk : f k
      · rw [if_pos hk]; simp
      · rw [if_neg hk]
        refine List.Pairwise.cons ?_ ih
        intro b hb
        rw [runOps_step_eq hb]

theorem runAllFrom_sorted (fail : Nat → OpKind → Bool) (n : Nat)
    (steps : List RunStep) :
    List.Pairwise (fun a b : RunEvent => a.step ≤ b.step)
      (runAllFrom fail n steps) := by
  induction steps generalizing n with
  | nil => simp [runAllFrom]
  | cons s rest ih =>
      rw [runAllFrom]
      apply List.pairwise_append.mpr
      refine ⟨?_, ih (n + 1), ?_⟩
      · by_cases hs : s.hasRef && s.hasData
        · rw [if_pos hs]
          exact runOps_sorted n (fail n) (stepOps s.type)
        · rw [if_neg hs]; exact List.Pairwise.nil
      · intro a ha b hb
        by_cases hs : s.hasRef && s.hasData
        · rw [if_pos hs] at ha
          rw [runOps_step_eq ha]
          exact (Nat.le_succ n).trans (runAllFrom_step_ge hb)
        · rw [if_neg hs] at ha
          simp at ha

theorem runAllFrom_first_op_mem (fail : Nat → OpKind → Bool) (n : Nat)
    (steps : List RunStep) (i : Nat) (s : RunStep)
    (h : steps[i]? = some s) (h1 : s.hasRef = true) (h2 : s.hasData = true) :
    ({ step := n + i, op := firstOp s.type,
       ok := !(fail (n + i) (firstOp s.type)) } : RunEvent) ∈
      runAllFrom fail n steps := by
  induction steps generalizing n i with
  | nil => simp at h
  | cons t rest ih =>
      rw [runAllFrom]
      cases i with
      | zero =>
          have ht : t = s := by simpa using h
          subst ht
          apply List.mem_append_left
          rw [h1, h2]
          simp only [Bool.and_self, if_true, Nat.add_zero]
          cases hops : stepOps t.type with
          | nil => exact absurd hops (stepOps_ne_nil t.type)
          | cons k0 krest =>
              have hfirst : firstOp t.type = k0 := by
                rw [firstOp, hops]; rfl
              rw [hfirst]
              exact runOps_first_mem n (fail n) k0 krest
      | succ i =>
          apply List.mem_append_right
          have hmem := ih (n + 1) i (by simpa using h)
          have harith : n + 1 + i = n + (i + 1) := by omega
          rw [harith] at hmem
          exact hmem

/-- C4: the runAll trace visits steps in non-decreasing step order, and
for every step with a valid ref and data its first operation is always
attempted (recorded in the trace), no matter which operations of which
other steps throw: one step failing never aborts the rest of the run. -/
theorem claim_C4_runAll_order_and_isolation (steps : List RunStep)
    (fail : Nat → OpKind → Bool) :
    (List.Pairwise (fun a b : RunEvent => a.step ≤ b.step) (runAll fail steps)) ∧
    (∀ i : Nat, ∀ s : RunStep, steps[i]? = some s →
      s.hasRef = true → s.hasData = true →
      ({ step := i, op := firstOp s.type,
         ok := !(fail i (firstOp s.type)) } : RunEvent) ∈ runAll fail steps) := by
  constructor
  · exact runAllFrom_sorted fail 0 steps
  · intro i s h h1 h2
    have hmem := runAllFrom_first_op_mem fail 0 steps i s h h1 h2
    simpa using hmem

/-- C4 witness: a two-step run where every operation of step 0 throws;
step 1's aggregation is still attempted. -/
theorem claim_C4_runAll_order_and_isolation_witness :
    (List.Pairwise (fun a b : RunEvent => a.step ≤ b.step)
      (runAll (fun i _ => decide (i = 0))
        [⟨.single, true, true⟩, ⟨.aggregation, true, true⟩])) ∧
    (∀ i : Nat, ∀ s : RunStep,
      ([⟨.single, true, true⟩, ⟨.aggregation, true, true⟩] : List RunStep)[i]? = some s →
      s.hasRef = true → s.hasData = true →
      ({ step := i, op := firstOp s.type,
         ok := !((fun i _ => decide (i = 0)) i (firstOp s.type)) } : RunEvent) ∈
        runAll (fun i _ => decide (i = 0))
          [⟨.single, true, true⟩, ⟨.aggregation, true, true⟩]) :=
  claim_C4_runAll_order_and_isolation
    [⟨.single, true, true⟩, ⟨.aggregation, true, true⟩] (fun i _ => decide (i = 0))

theorem reduceOption_idxMapFrom_some (g : Nat → α → β) (n : Nat) (l : List α) :
    (idxMapFrom (fun i a => some (g i a)) n l).reduceOption = idxMapFrom g n l := by
  induction l generalizing n with
  | nil => rfl
  | cons a as ih => simp [idxMapFrom, List.reduceOption_cons_of_some, ih]

theorem idxMapFrom_comp (f : Nat → α → β) (g : Nat → β → γ) (n : Nat) (l : List α) :
    idxMapFrom g n (idxMapFrom f n l) = idxMapFrom (fun i a => g i (f i a)) n l := by
  induction l generalizing n with
  | nil => rfl
  | cons a as ih => simp [idxMapFrom, ih]

theorem aggregatePost_success (prevRow : SheetRow) (sheetName : String)
    (parsedData : String → Option String) :
    (aggregatePost prevRow sheetName parsedData).success = true := rfl

theorem aggregatePost_insights (prevRow : SheetRow) (sheetName : String)
    (parsedData : String → Option String) :
    (aggregatePost prevRow sheetName parsedData).aggregatedInsights = parsedData := rfl

theorem aggregatePost_sheetName_of_named {prevRow : SheetRow} {c : Cell}
    (sheetName : String) (parsedData : String → Option String)
    (hc : prevRow.head? = some c) (hv : c.value ≠ "") :
    (aggregatePost prevRow sheetName parsedData).sheetName = c.value := by
  unfold aggregatePost
  rw [hc]
  simp [hv]

/-- The grid handleRunAggregation produces, rewritten as one direct
indexed map: one row per source sub-sheet, nothing filtered (every
response carries success true). -/
theorem handleRunAggregation_eq (headers : List String)
    (threeDSheets : List (List Cell)) (prevRows : List SheetRow)
    (parsed : Nat → String → Option String) :
    handleRunAggregation headers threeDSheets prevRows parsed =
      idxMap (fun k _ =>
        idxMap (fun colIndex header =>
          if colIndex = 0 then
            (⟨(if (aggregatePost (prevRows.getD k []) ("Sheet " ++ toString (k + 1))
                  (parsed k)).sheetName = "" then "Sheet " ++ toString (k + 1)
               else (aggregatePost (prevRows.getD k [])
                  ("Sheet " ++ toString (k + 1)) (parsed k)).sheetName), k, colIndex⟩ : Cell)
          else
            ⟨(parsed k header).getD "", k, colIndex⟩) headers) threeDSheets := by
  unfold handleRunAggregation
  simp only [idxMap]
  rw [idxMapFrom_comp]
  simp only [aggregatePost_success, aggregatePost_insights, if_true]
  rw [reduceOption_idxMapFrom_some]

/-- C2: on a delivered-response run over a 3D stack with n sub-sheets,
handleRunAggregation builds exactly one row per sub-sheet in sub-sheet
order; column 0 of row k is the origin name carried by sub-sheet k's
origin row (independent of anything the model returned); every other
column j is the model's insight value for header j, blank when that key
is missing. -/
theorem claim_C2_aggregation_one_row_per_subsheet (headers : List String)
    (threeDSheets : List (List Cell)) (prevRows : List SheetRow)
    (parsed : Nat → String → Option String) (hh : 0 < headers.length) :
    ((handleRunAggregation headers threeDSheets prevRows parsed).length =
      threeDSheets.length) ∧
    (∀ k : Nat, ∀ pr : SheetRow, ∀ c : Cell, k < threeDSheets.length →
      prevRows[k]? = some pr → pr.head? = some c → c.value ≠ "" →
      (((handleRunAggregation headers threeDSheets prevRows parsed)[k]?).bind
        fun r => r[0]?) = some ⟨c.value, k, 0⟩) ∧
    (∀ k j : Nat, ∀ h : String, k < threeDSheets.length → 0 < j →
      headers[j]? = some h →
      (((handleRunAggregation headers threeDSheets prevRows parsed)[k]?).bind
        fun r => r[j]?) = some ⟨(parsed k h).getD "", k, j⟩) := by
  rw [handleRunAggregation_eq]
  refine ⟨length_idxMap _ _, ?_, ?_⟩
  · intro k pr c hk hpr hc hv
    rw [getElem?_idxMap, List.getElem?_eq_getElem hk]
    have hgetD : prevRows.getD k [] = pr := by
      rw [List.getD_eq_getElem?_getD, hpr]; rfl
    rw [Option.map_some', Option.some_bind, getElem?_idxMap,
      List.getElem?_eq_getElem hh, Option.map_some', if_pos rfl, hgetD,
      aggregatePost_sheetName_of_named _ _ hc hv, if_neg hv]
  · intro k j h hk hj hhj
    rw [getElem?_idxMap, List.getElem?_eq_getElem hk, Option.map_some',
      Option.some_bind, getElem?_idxMap, hhj, Option.map_some',
      if_neg (by omega)]

/-- C2 witness: two sub-sheets named Acme and Beta with headers Name and
Score; the model returns a Score only for the first sheet. -/
theorem claim_C2_aggregation_one_row_per_subsheet_witness :
    ((handleRunAggregation ["Name", "Score"] [[], []]
      [[⟨"Acme", 0, 0⟩], [⟨"Beta", 1, 0⟩]]
      (fun k h => if k = 0 ∧ h = "Score" then some "9" else none)).length =
      ([[], []] : List (List Cell)).length) ∧
    (∀ k : Nat, ∀ pr : SheetRow, ∀ c : Cell, k < ([[], []] : List (List Cell)).length →
      ([[⟨"Acme", 0, 0⟩], [⟨"Beta", 1, 0⟩]] : List SheetRow)[k]? = some pr →
      pr.head? = some c → c.value ≠ "" →
      (((handleRunAggregation ["Name", "Score"] [[], []]
        [[⟨"Acme", 0, 0⟩], [⟨"Beta", 1, 0⟩]]
        (fun k h => if k = 0 ∧ h = "Score" then some "9" else none))[k]?).bind
          fun r => r[0]?) = some ⟨c.value, k, 0⟩) ∧
    (∀ k j : Nat, ∀ h : String, k < ([[], []] : List (List Cell)).length → 0 < j →
      (["Name", "Score"] : List String)[j]? = some h →
      (((handleRunAggregation ["Name", "Score"] [[], []]
        [[⟨"Acme", 0, 0⟩], [⟨"Beta", 1, 0⟩]]
        (fun k h => if k = 0 ∧ h = "Score" then some "9" else none))[k]?).bind
          fun r => r[j]?) =
        some ⟨((fun k h => if k = 0 ∧ h = "Score" then some "9" else none) k h).getD "", k, j⟩) :=
  claim_C2_aggregation_one_row_per_subsheet ["Name", "Score"] [[], []]
    [[⟨"Acme", 0, 0⟩], [⟨"Beta", 1, 0⟩]]
    (fun k h => if k = 0 ∧ h = "Score" then some "9" else none) (by decide)

theorem reduceOption_map_some (g : α → β) (l : List α) :
    (l.map fun a => some (g a)).reduceOption = l.map g := by
  induction l with
  | nil => rfl
  | cons a as ih => simp [List.reduceOption_cons_of_some, ih]

theorem map_subsheet_eta (l : List SubSheet) :
    (l.map fun u => ({ prevRow := u.prevRow, data := u.data } : SubSheet)) = l := by
  induction l with
  | nil => rfl
  | cons a as ih => simp [ih]

/-- C5 counterexample: the sub-sheet fan-out is not failure-isolated.
With two sub-sheets s0 and s1 and a findall collaborator that answers
s0's query with one result but rejects s1's query, handleRunFind leaves
the whole stack unchanged: s0's call succeeded, yet its results (one row
holding A) are not written into s0, whose grid keeps its single blank
row. -/
theorem claim_C5_counterexample :
    (threeDRunFind ["H"]
      [⟨[⟨"s0", 0, 0⟩], [[⟨"", 0, 0⟩]]⟩, ⟨[⟨"s1", 0, 0⟩], [[⟨"", 0, 0⟩]]⟩]
      (fun q => if q = "H for: s0" then .ok ["A"] else .error ()) =
      [⟨[⟨"s0", 0, 0⟩], [[⟨"", 0, 0⟩]]⟩, ⟨[⟨"s1", 0, 0⟩], [[⟨"", 0, 0⟩]]⟩]) ∧
    ((fun q => if q = "H for: s0" then Except.ok ["A"] else Except.error ())
      (findQuery ["H"] ⟨"s0", 0, 0⟩) = Except.ok ["A"]) ∧
    (findResultGrid ["H"] ["A"] = [[⟨"A", 0, 0⟩]]) ∧
    ([[⟨"A", 0, 0⟩]] : Grid) ≠ [[⟨"", 0, 0⟩]] := by
  refine ⟨by decide, by rfl, by rfl, by decide⟩

theorem findSheetPromise_ok_some {headers : List String}
    {find : String → Except Unit (List String)} {sheet : SubSheet} {c : Cell}
    {rs : List String}
    (hc : sheet.prevRow.find? (fun x => x.col == 0) = some c)
    (hok : find (findQuery headers c) = .ok rs) :
    findSheetPromise headers find sheet =
      .ok (some (findUpdateSheet headers find sheet)) := by
  simp only [findSheetPromise, findUpdateSheet, hc, hok]

theorem cellsSheetPromise_ok_some {run : String → Except Unit (Option (List (String × String)))}
    {sheet : SubSheet} {c : Cell}
    (hc : sheet.prevRow.find? (fun x => x.col == 0) = some c)
    (hok : ∀ row ∈ sheet.data, ∃ resp, run (cellsInput c row) = .ok resp) :
    cellsSheetPromise run sheet =
      .ok (some (cellsUpdateSheet run sheet)) := by
  have hall : ∀ x ∈ idxMap (cellsRowPromise run c) sheet.data, ∃ a, x = .ok a := by
    intro x hx
    rcases mem_idxMapFrom hx with ⟨k, row, hk, rfl⟩
    rcases hok row (mem_of_getElem?_some hk) with ⟨resp, hresp⟩
    exact ⟨cellsResponseRow c (0 + k) row resp,
      by simp only [cellsRowPromise, hresp]⟩
  rcases promiseAll_ok_of_forall hall with ⟨as, has, hget⟩
  have hrows : as = idxMap (cellsUpdateRow run c) sheet.data := by
    apply List.ext_getElem?
    intro n
    rw [hget n, getElem?_idxMap, getElem?_idxMap]
    cases hn : sheet.data[n]? with
    | none => rfl
    | some row =>
        rcases hok row (mem_of_getElem?_some hn) with ⟨resp, hresp⟩
        simp only [Option.map_some', Option.some_bind]
        simp only [cellsRowPromise, cellsUpdateRow, hresp]
        rfl
  simp only [cellsSheetPromise, cellsUpdateSheet, hc, has, hrows]

/-- C5 amended: handleRunFind and handleRunCells issue one call per
sub-sheet (one per row for runCells), but the calls are joined by an
all-or-nothing `Promise.all` barrier.  If any sub-sheet's call rejects,
the catch leaves every sub-sheet unchanged, including those whose calls
succeeded.  Only when every call is answered does the write-back happen,
and then each sub-sheet receives exactly its own results, in order. -/
theorem claim_C5_amended_fanout_all_or_nothing (headers : List String)
    (data : List SubSheet) (find : String → Except Unit (List String))
    (run : String → Except Unit (Option (List (String × String)))) :
    ((∃ sheet ∈ data, ∃ c : Cell,
        sheet.prevRow.find? (fun x => x.col == 0) = some c ∧
        find (findQuery headers c) = .error ()) →
      threeDRunFind headers data find = data) ∧
    ((∀ sheet ∈ data, ∃ c : Cell,
        sheet.prevRow.find? (fun x => x.col == 0) = some c ∧
        ∃ rs, find (findQuery headers c) = .ok rs) →
      threeDRunFind headers data find = data.map (findUpdateSheet headers find)) ∧
    ((∃ sheet ∈ data, ∃ c : Cell,
        sheet.prevRow.find? (fun x => x.col == 0) = some c ∧
        ∃ row ∈ sheet.data, run (cellsInput c row) = .error ()) →
      threeDRunCells headers data run = data) ∧
    ((∀ sheet ∈ data, ∃ c : Cell,
        sheet.prevRow.find? (fun x => x.col == 0) = some c ∧
        ∀ row ∈ sheet.data, ∃ resp, run (cellsInput c row) = .ok resp) →
      threeDRunCells headers data run = data.map (cellsUpdateSheet run)) := by
  refine ⟨?_, ?_, ?_, ?_⟩
  · rintro ⟨sheet, hmem, c, hc, herr⟩
    have hprom : Except.error () ∈ data.map (findSheetPromise headers find) := by
      apply List.mem_map.mpr
      refine ⟨sheet, hmem, ?_⟩
      simp only [findSheetPromise, hc, herr]
    rcases promiseAll_error_of_mem hprom with ⟨e2, he2⟩
    simp only [threeDRunFind, he2]
  · intro hok
    have hall : ∀ x ∈ data.map (findSheetPromise headers find), ∃ a, x = .ok a := by
      intro x hx
      rcases List.mem_map.mp hx with ⟨sheet, hmem, rfl⟩
      rcases hok sheet hmem with ⟨c, hc, rs, hrs⟩
      exact ⟨some (findUpdateSheet headers find sheet),
        findSheetPromise_ok_some hc hrs⟩
    rcases promiseAll_ok_of_forall hall with ⟨as, has, hget⟩
    have hsheets : as = data.map fun sheet =>
        some (findUpdateSheet headers find sheet) := by
      apply List.ext_getElem?
      intro n
      rw [hget n, List.getElem?_map, List.getElem?_map]
      cases hn : data[n]? with
      | none => rfl
      | some sheet =>
          rcases hok sheet (mem_of_getElem?_some hn) with ⟨c, hc, rs, hrs⟩
          simp only [Option.map_some', Option.some_bind]
          rw [findSheetPromise_ok_some hc hrs]
          rfl
    simp only [threeDRunFind, has]
    rw [hsheets, reduceOption_map_some, map_subsheet_eta]
  · rintro ⟨sheet, hmem, c, hc, row, hrowmem, herr⟩
    have hprom : Except.error () ∈ data.map (cellsSheetPromise run) := by
      apply List.mem_map.mpr
      refine ⟨sheet, hmem, ?_⟩
      rcases List.getElem?_of_mem hrowmem with ⟨r, hr⟩
      have hrp : Except.error () ∈ idxMap (cellsRowPromise run c) sheet.data := by
        apply mem_of_getElem?_some (k := r)
        rw [getElem?_idxMap, hr, Option.map_some']
        simp only [cellsRowPromise, herr]
      rcases promiseAll_error_of_mem hrp with ⟨e2, he2⟩
      simp only [cellsSheetPromise, hc, he2]
    rcases promiseAll_error_of_mem hprom with ⟨e2, he2⟩
    simp only [threeDRunCells, he2]
  · intro hok
    have hall : ∀ x ∈ data.map (cellsSheetPromise run), ∃ a, x = .ok a := by
      intro x hx
      rcases List.mem_map.mp hx with ⟨sheet, hmem, rfl⟩
      rcases hok sheet hmem with ⟨c, hc, hrows⟩
      exact ⟨some (cellsUpdateSheet run sheet), cellsSheetPromise_ok_some hc hrows⟩
    rcases promiseAll_ok_of_forall hall with ⟨as, has, hget⟩
    have hsheets : as = data.map fun sheet => some (cellsUpdateSheet run sheet) := by
      apply List.ext_getElem?
      intro n
      rw [hget n, List.getElem?_map, List.getElem?_map]
      cases hn : data[n]? with
      | none => rfl
      | some sheet =>
          rcases hok sheet (mem_of_getElem?_some hn) with ⟨c, hc, hrows⟩
          simp only [Option.map_some', Option.some_bind]
          rw [cellsSheetPromise_ok_some hc hrows]
          rfl
    simp only [threeDRunCells, has]
    rw [hsheets, reduceOption_map_some, map_subsheet_eta]

/-- C5 witness: with the counterexample's two-sheet stack, an always
failing findall leaves the stack unchanged, while an always answering
findall and runCells update every sub-sheet independently. -/
theorem claim_C5_amended_fanout_all_or_nothing_witness :
    ((∃ sheet ∈ ([⟨[⟨"s0", 0, 0⟩], [[⟨"", 0, 0⟩]]⟩] : List SubSheet), ∃ c : Cell,
        sheet.prevRow.find? (fun x => x.col == 0) = some c ∧
        alwaysFailFind (findQuery ["H"] c) = .error ()) →
      threeDRunFind ["H"] [⟨[⟨"s0", 0, 0⟩], [[⟨"", 0, 0⟩]]⟩] alwaysFailFind =
        [⟨[⟨"s0", 0, 0⟩], [[⟨"", 0, 0⟩]]⟩]) ∧
    ((∀ sheet ∈ ([⟨[⟨"s0", 0, 0⟩], [[⟨"", 0, 0⟩]]⟩] : List SubSheet), ∃ c : Cell,
        sheet.prevRow.find? (fun x => x.col == 0) = some c ∧
        ∃ rs, alwaysFailFind (findQuery ["H"] c) = .ok rs) →
      threeDRunFind ["H"] [⟨[⟨"s0", 0, 0⟩], [[⟨"", 0, 0⟩]]⟩] alwaysFailFind =
        ([⟨[⟨"s0", 0, 0⟩], [[⟨"", 0, 0⟩]]⟩] : List SubSheet).map
          (findUpdateSheet ["H"] alwaysFailFind)) ∧
    ((∃ sheet ∈ ([⟨[⟨"s0", 0, 0⟩], [[⟨"", 0, 0⟩]]⟩] : List SubSheet), ∃ c : Cell,
        sheet.prevRow.find? (fun x => x.col == 0) = some c ∧
        ∃ row ∈ sheet.data, alwaysOkRun (cellsInput c row) = .error ()) →
      threeDRunCells ["H"] [⟨[⟨"s0", 0, 0⟩], [[⟨"", 0, 0⟩]]⟩] alwaysOkRun =
        [⟨[⟨"s0", 0, 0⟩], [[⟨"", 0, 0⟩]]⟩]) ∧
    ((∀ sheet ∈ ([⟨[⟨"s0", 0, 0⟩], [[⟨"", 0, 0⟩]]⟩] : List SubSheet), ∃ c : Cell,
        sheet.prevRow.find? (fun x => x.col == 0) = some c ∧
        ∀ row ∈ sheet.data, ∃ resp, alwaysOkRun (cellsInput c row) = .ok resp) →
      threeDRunCells ["H"] [⟨[⟨"s0", 0, 0⟩], [[⟨"", 0, 0⟩]]⟩] alwaysOkRun =
        ([⟨[⟨"s0", 0, 0⟩], [[⟨"", 0, 0⟩]]⟩] : List SubSheet).map
          (cellsUpdateSheet alwaysOkRun)) :=
  claim_C5_amended_fanout_all_or_nothing ["H"] [⟨[⟨"s0", 0, 0⟩], [[⟨"", 0, 0⟩]]⟩]
    alwaysFailFind alwaysOkRun

end SpreadsheetWorkflow
